import Mathlib

/-!
Shallow embedding of the DA-agent chat front-end (React/TS) in Lean 4.

The repository is a React/MUI single-page chat application talking to a
FastAPI backend.  The state handlers of the components `AgentApp`
(src/chat/frontend/src/AgentApp.tsx), `ChatPage` / `SettingsPage`
(src/unnamed/part_004), the API layer (src/unnamed/part_010) and the
message renderer `ChatMessage` (src/chat/frontend/src/components/ChatMessage.tsx)
are embedded as pure Lean functions.  External calls (axios requests,
JSON.parse, file uploads) are modelled by passing their outcome as an
explicit argument; React state updates become explicit state records.
JavaScript truthiness of optional strings (undefined / null / "" are falsy)
is modelled by `strTruthy` on `Option String`.
-/

namespace DAAgent

/-- JavaScript whitespace characters (the ASCII part of the regex class
backslash-s together with NBSP; sufficient for the strings handled here). -/
def jsWhitespaceChar (c : Char) : Bool :=
  c = ' ' || c = '\t' || c = '\n' || c = '\r' ||
  c = '\x0b' || c = '\x0c' || c = ' '

/-- `String.prototype.trim`, modelled on the character list. -/
def jsTrimList (l : List Char) : List Char :=
  ((l.dropWhile jsWhitespaceChar).reverse.dropWhile jsWhitespaceChar).reverse

/-- `s.trim()` on Lean strings. -/
def jsTrim (s : String) : String :=
  String.mk (jsTrimList s.toList)

/-- JS truthiness of a possibly-absent string: `undefined`, `null` and the
empty string are falsy, every other string is truthy. -/
def strTruthy : Option String → Bool
  | some s => !(s == "")
  | none => false

/-- JS `x || d` for a possibly-absent string `x` and a string default `d`. -/
def jsOrStr (x : Option String) (d : String) : String :=
  if strTruthy x then x.getD d else d

/-- Message roles used by the front-end. -/
inductive Role where
  | user
  | assistant
  | assistant_tool
  deriving DecidableEq, Repr

/-- `Message` from src/chat/frontend/src/types/index.ts. -/
structure Message where
  role : Role
  content : String
  timestamp : Option String := none
  deriving DecidableEq, Repr

/-- `QueryRequest` from src/chat/frontend/src/types/index.ts, with every
field present as in the bodies actually posted by the code. -/
structure QueryRequest where
  query : String
  model : String
  timeout_seconds : Nat
  recursion_limit : Nat
  deriving DecidableEq, Repr

/-- A JSON value, used to model `JSON.parse` results and tool configs. -/
inductive JValue where
  | null
  | bool (b : Bool)
  | num (n : Int)
  | str (s : String)
  | arr (xs : List JValue)
  | obj (kvs : List (String × JValue))

/-- `Object.keys`: the top-level keys of an object, `[]` on non-objects. -/
def objectKeys : JValue → List String
  | JValue.obj kvs => kvs.map Prod.fst
  | _ => []

namespace Api

/-!  The API layer, src/unnamed/part_010.  -/

/-- The request body built by `sendMessage` (src/unnamed/part_010):
`queryContent` is the message, with the attachment annotation appended when
`attachmentPath` is truthy, and the three remaining fields are the literals
hard-coded in the function. -/
def sendMessageBody (message : String) (attachmentPath : Option String) :
    QueryRequest :=
  { query :=
      if strTruthy attachmentPath then
        message ++ "\n[첨부 파일: " ++ attachmentPath.getD "" ++ "]"
      else message
    model := "gpt-4o"
    timeout_seconds := 120
    recursion_limit := 100 }

/-- Result of one `sendMessage` call: the thread the query was posted to,
the posted body, and the localStorage entry after the call. -/
structure SendMessageResult where
  threadId : String
  body : QueryRequest
  storage : Option String
  deriving DecidableEq, Repr

/-- `sendMessage` (src/unnamed/part_010), success path: when the stored
thread id is falsy a new thread (`newId`, the id returned by
`createThread`) is created and stored; the query body is then posted to
the resulting thread. -/
def sendMessageModel (storage : Option String) (newId : String)
    (message : String) (attachmentPath : Option String) : SendMessageResult :=
  let tid := if strTruthy storage then storage.getD "" else newId
  let storage2 := if strTruthy storage then storage else some newId
  { threadId := tid
    body := sendMessageBody message attachmentPath
    storage := storage2 }

/-- The `sendMessage(userInput, attachmentPath, model, timeout, recursion)`
call in AgentApp.handleSendMessage: `sendMessage` is declared with two
parameters, so the three extra JavaScript arguments are discarded. -/
def sendMessageCallSite (storage : Option String) (newId : String)
    (message : String) (attachmentPath : String)
    (_selectedModel : String) (_timeoutSeconds : Nat) (_recursionLimit : Nat) :
    SendMessageResult :=
  sendMessageModel storage newId message (some attachmentPath)

/-- Backend payload of `GET /api/settings` as read by `getSettings`:
it may carry both a `models` and an `available_models` field. -/
structure BackendSettingsData where
  tool_count : Nat
  current_config : List (String × JValue)
  current_model : Option String
  models : Option (List String)
  available_models : Option (List String)

/-- The record returned by `getSettings` (src/unnamed/part_010). -/
structure SettingsResult where
  tool_count : Nat
  current_config : List (String × JValue)
  current_model : Option String
  models : List String

/-- `getSettings` (src/unnamed/part_010), success path: passes
`tool_count`, `current_config` and `current_model` through and sets
`models` to `response.data.available_models || []`. -/
def getSettings (d : BackendSettingsData) : SettingsResult :=
  { tool_count := d.tool_count
    current_config := d.current_config
    current_model := d.current_model
    models := d.available_models.getD [] }

end Api

namespace SettingsPage

/-!  `SettingsPage` from src/unnamed/part_004 (lines 26-130).  -/

/-- Thrown values distinguished by the catch blocks of the page. -/
inductive JsThrown where
  | syntaxError (msg : String)
  | axiosError (detail : Option String)
  | other
  deriving DecidableEq

/-- The component state touched by `handleSaveConfig`. -/
structure State where
  isLoading : Bool
  success : Option String
  error : Option String
  toolCount : Nat
  currentConfig : JValue
  jsonConfig : String

/-- `handleSaveConfig` (src/unnamed/part_004).  `parseRes` is the outcome
of `JSON.parse(jsonConfig)` (`Except.error` = a SyntaxError with its
message) and `updateRes` the outcome of the `updateSettings` request. -/
def handleSaveConfig (st : State) (parseRes : Except String JValue)
    (updateRes : Except JsThrown Unit) : State :=
  let st0 : State := { st with isLoading := true, success := none, error := none }
  match parseRes with
  | Except.error m =>
      { st0 with error := some ("JSON 형식 오류: " ++ m), isLoading := false }
  | Except.ok parsedConfig =>
      match updateRes with
      | Except.ok _ =>
          { st0 with
              success := some "설정이 성공적으로 저장되었습니다."
              currentConfig := parsedConfig
              toolCount := (objectKeys parsedConfig).length
              isLoading := false }
      | Except.error (JsThrown.syntaxError m) =>
          { st0 with error := some ("JSON 형식 오류: " ++ m), isLoading := false }
      | Except.error (JsThrown.axiosError d) =>
          { st0 with
              error := some (jsOrStr d "설정 저장 중 오류가 발생했습니다.")
              isLoading := false }
      | Except.error JsThrown.other =>
          { st0 with
              error := some "설정 저장 중 오류가 발생했습니다."
              isLoading := false }

end SettingsPage

namespace AgentApp

/-!  `AgentApp` from src/chat/frontend/src/AgentApp.tsx.  -/

/-- `ExtendedMessageType` (AgentApp.tsx): `Message` with tool-reference and
attachment fields. -/
structure ExtMessage where
  role : Role
  content : String
  toolReferenceId : Option Nat := none
  referencedToolId : Option Nat := none
  attachmentPath : Option String := none
  deriving DecidableEq, Repr

/-- Backend payload of a `sendMessage` call as read by
`AgentApp.handleSendMessage` (`response.thread_id`, `response.tool_info`,
`response.response`, each possibly absent). -/
structure SendResponse where
  thread_id : Option String := none
  tool_info : Option String := none
  response : Option String := none
  deriving DecidableEq, Repr

/-- The `AgentApp` component state touched by the handlers under study,
together with the `threadId` localStorage entry. -/
structure State where
  messages : List ExtMessage
  currentToolReferenceId : Nat
  userInput : String
  attachment : Bool
  attachmentPath : String
  isProcessing : Bool
  storage : Option String
  deriving DecidableEq, Repr

/-- Initial component state (`useState` initialisers of AgentApp). -/
def initialState : State :=
  { messages := []
    currentToolReferenceId := 1
    userInput := ""
    attachment := false
    attachmentPath := ""
    isProcessing := false
    storage := none }

/-- The early-return guard of `AgentApp.handleSendMessage`: blocked when
the trimmed input is falsy and no file is attached, or when a file is
attached whose upload has not produced a path yet. -/
def sendBlocked (st : State) : Bool :=
  (jsTrim st.userInput == "" && !st.attachment) ||
  (st.attachment && st.attachmentPath == "")

/-- The fixed error message appended by the catch block of
`handleSendMessage`. -/
def sendErrorMessage : ExtMessage :=
  { role := Role.assistant
    content := "오류가 발생했습니다. 다시 시도해주세요." }

/-- `AgentApp.handleSendMessage`.  `outcome` is the result of the awaited
`sendMessage` call (`Except.error` = the promise rejected).  The success
path updates the stored thread id, clears the attachment, appends the
tool message when `response.tool_info` is truthy (advancing the tool
reference counter), and appends the assistant reply. -/
def handleSendMessage (st : State) (outcome : Except Unit SendResponse) :
    State :=
  if sendBlocked st then st
  else
    let userMessage : ExtMessage :=
      { role := Role.user
        content := st.userInput
        attachmentPath := some st.attachmentPath }
    let st1 : State :=
      { st with
          messages := st.messages ++ [userMessage]
          userInput := ""
          isProcessing := true }
    match outcome with
    | Except.error _ =>
        { st1 with
            messages := st1.messages ++ [sendErrorMessage]
            isProcessing := false }
    | Except.ok resp =>
        let st2 : State :=
          if strTruthy st1.storage && strTruthy resp.thread_id &&
              !(st1.storage.getD "" == resp.thread_id.getD "") then
            { st1 with storage := resp.thread_id }
          else st1
        let st3 : State := { st2 with attachment := false, attachmentPath := "" }
        let withTool : State × Option Nat :=
          if strTruthy resp.tool_info then
            let toolReferenceId := st3.currentToolReferenceId
            let toolMessage : ExtMessage :=
              { role := Role.assistant_tool
                content := resp.tool_info.getD ""
                toolReferenceId := some toolReferenceId }
            ({ st3 with
                messages := st3.messages ++ [toolMessage]
                currentToolReferenceId := st3.currentToolReferenceId + 1 },
              some toolReferenceId)
          else (st3, none)
        let assistantMessage : ExtMessage :=
          { role := Role.assistant
            content := jsOrStr resp.response "응답을 받지 못했습니다."
            referencedToolId := withTool.2 }
        { withTool.1 with
            messages := withTool.1.messages ++ [assistantMessage]
            isProcessing := false }

/-- `AgentApp.handleResetConversation`, with `r` the `thread_id` of the
`resetConversation` response (absent when the response carries none):
stores the new thread id when truthy, empties the message list and resets
the tool reference counter to 1. -/
def handleResetConversation (st : State) (r : Option String) : State :=
  let st1 : State := if strTruthy r then { st with storage := r } else st
  { st1 with
      messages := []
      currentToolReferenceId := 1
      isProcessing := false }

/-- `AgentApp.handleFileUpload`, success path: the chosen file becomes the
attachment and the uploaded path is recorded. -/
def handleFileUploadSuccess (st : State) (path : String) : State :=
  { st with attachment := true, attachmentPath := path, isProcessing := false }

/-- `AgentApp.handleFileUpload`, error path: the attachment is cleared and
an error message is appended to the conversation. -/
def handleFileUploadError (st : State) : State :=
  { st with
      attachment := false
      messages := st.messages ++
        [{ role := Role.assistant
           content := "파일 업로드 중 오류가 발생했습니다. 다시 시도해주세요." }]
      isProcessing := false }

/-- `AgentApp.handleRemoveAttachment`. -/
def handleRemoveAttachment (st : State) : State :=
  { st with attachment := false, attachmentPath := "" }

/-- The `TextField onChange` handler: typing replaces `userInput`. -/
def setInput (st : State) (s : String) : State :=
  { st with userInput := s }

/-- States the `AgentApp` component can reach: the initial state (the
mount effect only clears an already-empty message list, so it is the
start state itself) closed under the message-list and attachment
handlers. -/
inductive Reachable : State → Prop where
  | init : Reachable initialState
  | send (st : State) (outcome : Except Unit SendResponse) :
      Reachable st → Reachable (handleSendMessage st outcome)
  | reset (st : State) (r : Option String) :
      Reachable st → Reachable (handleResetConversation st r)
  | uploadOk (st : State) (path : String) :
      Reachable st → Reachable (handleFileUploadSuccess st path)
  | uploadErr (st : State) :
      Reachable st → Reachable (handleFileUploadError st)
  | removeAttachment (st : State) :
      Reachable st → Reachable (handleRemoveAttachment st)
  | typing (st : State) (s : String) :
      Reachable st → Reachable (setInput st s)

/-- The `assistant_tool` messages of a state, in list order. -/
def toolMessages (st : State) : List ExtMessage :=
  st.messages.filter (fun m => m.role == Role.assistant_tool)

/-- The numbering invariant: the counter is one past the number of tool
messages and the (k+1)-st tool message carries reference id k+1. -/
def toolInvariant (st : State) : Prop :=
  st.currentToolReferenceId = (toolMessages st).length + 1 ∧
  ∀ i : Nat, ∀ m : ExtMessage,
    (toolMessages st)[i]? = some m → m.toolReferenceId = some (i + 1)

end AgentApp

namespace ChatPage

/-!  `ChatPage` from src/unnamed/part_004 (lines 300 onwards).  -/

/-- `AppSettings` from src/chat/frontend/src/types/index.ts. -/
structure AppSettings where
  model : String
  timeout_seconds : Nat
  recursion_limit : Nat
  deriving DecidableEq, Repr

/-- Payload of a `queryAgent` response as read by the page
(`response.response`, `response.tool_calls`). -/
structure QueryResponseData where
  response : String
  tool_calls : Option String := none
  deriving DecidableEq, Repr

/-- Thrown values distinguished by the catch block of
`ChatPage.handleSendMessage`. -/
inductive JsThrown where
  | axiosError (detail : Option String)
  | other
  deriving DecidableEq, Repr

/-- The `ChatPage` component state touched by the handlers under study,
together with the `threadId` localStorage entry. -/
structure State where
  threadId : String
  messages : List Message
  query : String
  isLoading : Bool
  error : Option String
  toolInfo : Option String
  settings : AppSettings
  storage : Option String
  deriving DecidableEq, Repr

/-- The initialization effect `initChat` (src/unnamed/part_004), success
path.  `storage` is the saved localStorage entry, `getThreadRes` the
outcome of `getThread` on the saved id, and `newId` the id `createThread`
would return.  The result is the localStorage entry, the component
`threadId` and the message list after the effect. -/
def initChat (storage : Option String) (getThreadRes : Except Unit (List Message))
    (newId : String) : Option String × String × List Message :=
  if strTruthy storage then
    match getThreadRes with
    | Except.ok msgs => (storage, storage.getD "", msgs)
    | Except.error _ => (some newId, newId, [])
  else (some newId, newId, [])

/-- `ChatPage.handleSendMessage`.  The first component of the result is
the request actually issued (thread id and body), `none` when the guard
returns early; `outcome` is the result of the awaited `queryAgent` call. -/
def handleSendMessage (st : State) (outcome : Except JsThrown QueryResponseData) :
    Option (String × QueryRequest) × State :=
  if jsTrim st.query == "" || st.isLoading then (none, st)
  else
    let userMessage : Message := { role := Role.user, content := st.query }
    let st1 : State :=
      { st with
          messages := st.messages ++ [userMessage]
          query := ""
          isLoading := true
          error := none
          toolInfo := none }
    let req : QueryRequest :=
      { query := userMessage.content
        model := st.settings.model
        timeout_seconds := st.settings.timeout_seconds
        recursion_limit := st.settings.recursion_limit }
    match outcome with
    | Except.ok resp =>
        let st2 : State :=
          { st1 with
              messages := st1.messages ++
                [{ role := Role.assistant, content := resp.response }] }
        let st3 : State :=
          if strTruthy resp.tool_calls then { st2 with toolInfo := resp.tool_calls }
          else st2
        (some (st.threadId, req), { st3 with isLoading := false })
    | Except.error e =>
        let st2 : State :=
          match e with
          | JsThrown.axiosError d =>
              { st1 with
                  error := some (jsOrStr d "메시지 전송 중 오류가 발생했습니다.") }
          | JsThrown.other => st1
        (some (st.threadId, req), { st2 with isLoading := false })

/-- `ChatPage.handleResetChat`, confirmed path with both requests
succeeding: the old thread (`st.threadId`, first component, the argument
passed to `deleteThread`) is deleted, a new thread `newId` is created, and
the component and localStorage both take the new id. -/
def handleResetChat (st : State) (newId : String) : String × State :=
  (st.threadId,
    { st with
        threadId := newId
        messages := []
        storage := some newId
        isLoading := false })

end ChatPage

namespace ChatMessage

/-!  `renderContentWithLinks` from
src/chat/frontend/src/components/ChatMessage.tsx, embedded at the
character-list level, with the statefulness of `RegExp.prototype.test` on
the two global regexes made explicit (`lastIndex` threading).  -/

/-- Rendered output of one part: plain text, the report-opening button
(with the computed filename label and the url), or the generic link
button. -/
inductive RenderItem where
  | plain (s : List Char)
  | reportButton (filename : List Char) (url : List Char)
  | linkButton (url : List Char)
  deriving DecidableEq, Repr

/-- Complement of the regex whitespace class. -/
def nonWs (c : Char) : Bool := !jsWhitespaceChar c

/-- The literal head of the report-URL regex
`http://localhost:8000/reports/[^\s]+\.html`. -/
def reportUrlHead : List Char := "http://localhost:8000/reports/".toList

/-- Whether a character list ends with `.html`. -/
def endsHtml (l : List Char) : Bool := ".html".toList.isSuffixOf l

/-- Greedy backtracking of `[^\s]+\.html` over the non-whitespace run
`run`: the largest `k` such that the first `k` characters end in `.html`
with at least one character before it. -/
def lastHtmlEnd (run : List Char) : Option Nat :=
  ((List.range (run.length + 1)).filter
    (fun k => decide (6 ≤ k) && endsHtml (run.take k))).getLast?

/-- Length of the match of the report-URL regex anchored at the head of
`l` (`none` when the regex does not match there). -/
def matchReportLenAt (l : List Char) : Option Nat :=
  if reportUrlHead.isPrefixOf l then
    (lastHtmlEnd ((l.drop reportUrlHead.length).takeWhile nonWs)).map
      (fun k => reportUrlHead.length + k)
  else none

/-- Length of the match of the generic URL regex `https?:\/\/[^\s]+`
anchored at the head of `l`. -/
def matchUrlLenAt (l : List Char) : Option Nat :=
  if "https://".toList.isPrefixOf l then
    let run := (l.drop 8).takeWhile nonWs
    if run.length = 0 then none else some (8 + run.length)
  else if "http://".toList.isPrefixOf l then
    let run := (l.drop 7).takeWhile nonWs
    if run.length = 0 then none else some (7 + run.length)
  else none

/-- Leftmost match of an anchored matcher `f`: the first index `i` (with
match length `n`) at which `f` matches. -/
def scanMatch (f : List Char → Option Nat) : List Char → Option (Nat × Nat)
  | [] => (f []).map (fun n => (0, n))
  | c :: cs =>
    match f (c :: cs) with
    | some n => some (0, n)
    | none => (scanMatch f cs).map (fun p => (p.1 + 1, p.2))

/-- Whether a match of `f` occurs anywhere in `l` (regex `test` with
`lastIndex` 0). -/
def hasMatch (f : List Char → Option Nat) (l : List Char) : Bool :=
  (scanMatch f l).isSome

/-- `RegExp.prototype.test` of a global regex: the search starts at
`lastIndex` `li`; on success `lastIndex` becomes the end of the match, on
failure it is reset to 0. -/
def jsTestG (f : List Char → Option Nat) (li : Nat) (l : List Char) :
    Bool × Nat :=
  if li ≤ l.length then
    match scanMatch f (l.drop li) with
    | some p => (true, li + p.1 + p.2)
    | none => (false, 0)
  else (false, 0)

/-- One round of `text.split(reportUrlRegex)` per unit of fuel: cut out
the leftmost match and recurse on the remainder.  (`max n 1` only serves
the length bookkeeping: every match of the report regex has length at
least 36.) -/
def splitReportF : Nat → List Char → List (List Char)
  | 0, l => [l]
  | Nat.succ fuel, l =>
    match scanMatch matchReportLenAt l with
    | none => [l]
    | some (i, n) =>
        l.take i :: (l.drop i).take n :: splitReportF fuel (l.drop (i + max n 1))

/-- `text.split(reportUrlRegex)` with the regex in one capturing group:
alternating non-matched substrings and matches.  One unit of fuel per
character is enough, since every match consumes at least one character. -/
def splitReport (l : List Char) : List (List Char) :=
  splitReportF (l.length + 1) l

/-- `part.split('/')` (split on a plain character). -/
def splitOnSlash : List Char → List (List Char)
  | [] => [[]]
  | c :: cs =>
    if c = '/' then [] :: splitOnSlash cs
    else
      match splitOnSlash cs with
      | [] => [[c]]
      | p :: ps => (c :: p) :: ps

/-- `s.replace('.html', '')`: removes the first occurrence of `.html`,
identity when there is none. -/
def replaceFirstHtml : List Char → List Char
  | [] => []
  | c :: cs =>
    if ".html".toList.isPrefixOf (c :: cs) then cs.drop 4
    else c :: replaceFirstHtml cs

/-- `part.split('/').pop()?.replace('.html', '') || '보고서'`: the label
of the report button. -/
def filenameOf (part : List Char) : List Char :=
  let seg := ((splitOnSlash part).getLast?).getD []
  let r := replaceFirstHtml seg
  if r = [] then "보고서".toList else r

/-- The `parts.map (...)` body of `renderContentWithLinks`, threading the
`lastIndex` of the two global regexes (`rli` for the report regex, `uli`
for the generic URL regex) through the successive `test` calls. -/
def renderParts : Nat → Nat → List (List Char) → List RenderItem
  | _, _, [] => []
  | rli, uli, part :: rest =>
    let pr := jsTestG matchReportLenAt rli part
    if pr.1 then
      RenderItem.reportButton (filenameOf part) part :: renderParts pr.2 uli rest
    else
      let pu := jsTestG matchUrlLenAt uli part
      if pu.1 then RenderItem.linkButton part :: renderParts pr.2 pu.2 rest
      else RenderItem.plain part :: renderParts pr.2 pu.2 rest

/-- `renderContentWithLinks`: split on the report regex, then render each
part (both regexes start with `lastIndex` 0; `String.prototype.split`
does not advance the `lastIndex` of its argument). -/
def renderContentWithLinks (text : List Char) : List RenderItem :=
  renderParts 0 0 (splitReport text)

/-- The spec side of the label claim: the last path segment stripped of a
trailing `.html` suffix.  Stated from the words of the claim, to compare
with what the code computes. -/
def specStripHtmlSuffix (l : List Char) : List Char :=
  if endsHtml l then l.take (l.length - 5) else l

/-- Alternating shape of the split output: separators contain no match of
the report regex, and every match part matches it exactly. -/
inductive GoodParts : List (List Char) → Prop where
  | last (s : List Char) (hs : scanMatch matchReportLenAt s = none) :
      GoodParts [s]
  | cons (s m : List Char) (rest : List (List Char))
      (hs : scanMatch matchReportLenAt s = none)
      (hm : matchReportLenAt m = some m.length) :
      GoodParts rest → GoodParts (s :: m :: rest)

end ChatMessage

/-! ## Theorems -/

/-- C6: for every backend response, the record returned by `getSettings`
has its `models` field equal to the response's `available_models` field
when present and to the empty list otherwise, passes `tool_count`,
`current_config` and `current_model` through unchanged, and never uses
the `models` field of the backend response. -/
theorem getSettings_models_spec (d : Api.BackendSettingsData) :
    (Api.getSettings d).models =
      (match d.available_models with
        | some l => l
        | none => []) ∧
    (Api.getSettings d).tool_count = d.tool_count ∧
    (Api.getSettings d).current_config = d.current_config ∧
    (Api.getSettings d).current_model = d.current_model ∧
    ∀ m, Api.getSettings { d with models := m } = Api.getSettings d := by
  refine ⟨?_, rfl, rfl, rfl, fun m => rfl⟩
  cases h : d.available_models <;> simp [Api.getSettings, h]

/-- C5: when parsing and the update request both succeed,
`handleSaveConfig` sets `currentConfig` to the parsed object and
`toolCount` to its number of top-level keys; when `JSON.parse` throws or
the update request fails, `currentConfig` and `toolCount` are unchanged
and an error message is set instead of a success message. -/
theorem handleSaveConfig_spec (st : SettingsPage.State) (parsed : JValue)
    (m : String) (ur : Except SettingsPage.JsThrown Unit)
    (u : SettingsPage.JsThrown) :
    ((SettingsPage.handleSaveConfig st (Except.ok parsed) (Except.ok ())).currentConfig =
        parsed ∧
      (SettingsPage.handleSaveConfig st (Except.ok parsed) (Except.ok ())).toolCount =
        (objectKeys parsed).length ∧
      (SettingsPage.handleSaveConfig st (Except.ok parsed) (Except.ok ())).success.isSome =
        true) ∧
    ((SettingsPage.handleSaveConfig st (Except.error m) ur).currentConfig =
        st.currentConfig ∧
      (SettingsPage.handleSaveConfig st (Except.error m) ur).toolCount = st.toolCount ∧
      (SettingsPage.handleSaveConfig st (Except.error m) ur).error.isSome = true ∧
      (SettingsPage.handleSaveConfig st (Except.error m) ur).success = none) ∧
    ((SettingsPage.handleSaveConfig st (Except.ok parsed) (Except.error u)).currentConfig =
        st.currentConfig ∧
      (SettingsPage.handleSaveConfig st (Except.ok parsed) (Except.error u)).toolCount =
        st.toolCount ∧
      (SettingsPage.handleSaveConfig st (Except.ok parsed) (Except.error u)).error.isSome =
        true ∧
      (SettingsPage.handleSaveConfig st (Except.ok parsed) (Except.error u)).success =
        none) := by
  refine ⟨⟨rfl, rfl, rfl⟩, ⟨rfl, rfl, rfl, rfl⟩, ?_⟩
  cases u <;> exact ⟨rfl, rfl, rfl, rfl⟩

/-- C3 counterexample: at the AgentApp call site the attachment path is
always passed (possibly as the empty string); for a present-but-empty
`attachmentPath` the posted query is the bare message, not the message
followed by the attachment annotation, contradicting the claim for that
input. -/
theorem sendMessage_body_counterexample :
    (Api.sendMessageBody "hi" (some "")).query = "hi" ∧
      ("hi" : String) ≠ "hi" ++ "\n[첨부 파일: " ++ "" ++ "]" := by
  exact ⟨rfl, by decide⟩

/-- C3 (amended): every body posted by `sendMessage` has model `gpt-4o`,
timeout 120 and recursion limit 100; its query is the message when the
attachment path is absent or empty, and the message followed by the
attachment annotation when it is present and non-empty; the extra
arguments passed at the AgentApp call site do not affect the result. -/
theorem sendMessage_body_spec (storage : Option String)
    (newId message path m1 : String) (t1 r1 : Nat) :
    ((Api.sendMessageCallSite storage newId message path m1 t1 r1).body.model =
        "gpt-4o" ∧
      (Api.sendMessageCallSite storage newId message path m1 t1 r1).body.timeout_seconds =
        120 ∧
      (Api.sendMessageCallSite storage newId message path m1 t1 r1).body.recursion_limit =
        100) ∧
    (path = "" →
      (Api.sendMessageCallSite storage newId message path m1 t1 r1).body.query =
        message) ∧
    (path ≠ "" →
      (Api.sendMessageCallSite storage newId message path m1 t1 r1).body.query =
        message ++ "\n[첨부 파일: " ++ path ++ "]") ∧
    (∀ m2 : String, ∀ t2 r2 : Nat,
      Api.sendMessageCallSite storage newId message path m2 t2 r2 =
        Api.sendMessageCallSite storage newId message path m1 t1 r1) ∧
    (Api.sendMessageBody message none).query = message := by
  refine ⟨⟨rfl, rfl, rfl⟩, ?_, ?_, fun m2 t2 r2 => rfl, rfl⟩
  · intro h
    subst h
    rfl
  · intro h
    have hb : strTruthy (some path) = true := by
      simp [strTruthy, h]
    simp [Api.sendMessageCallSite, Api.sendMessageModel, Api.sendMessageBody, hb]

/-- C3 witness: a concrete non-empty attachment path produces the
annotated query. -/
theorem sendMessage_body_spec_witness :
    ("f.csv" : String) ≠ "" ∧
      (Api.sendMessageCallSite none "t1" "hi" "f.csv" "o3" 7 9).body.query =
        "hi" ++ "\n[첨부 파일: " ++ "f.csv" ++ "]" :=
  ⟨by decide,
    (sendMessage_body_spec none "t1" "hi" "f.csv" "o3" 7 9).2.2.1 (by decide)⟩

/-- C7: when the trimmed query text is empty or `isLoading` is true,
`ChatPage.handleSendMessage` issues no request and leaves `messages`,
`threadId`, `error` and `toolInfo` unchanged. -/
theorem chatSend_guard (st : ChatPage.State)
    (outcome : Except ChatPage.JsThrown ChatPage.QueryResponseData)
    (h : jsTrim st.query = "" ∨ st.isLoading = true) :
    (ChatPage.handleSendMessage st outcome).1 = none ∧
    (ChatPage.handleSendMessage st outcome).2.messages = st.messages ∧
    (ChatPage.handleSendMessage st outcome).2.threadId = st.threadId ∧
    (ChatPage.handleSendMessage st outcome).2.error = st.error ∧
    (ChatPage.handleSendMessage st outcome).2.toolInfo = st.toolInfo := by
  have hc : (jsTrim st.query == "" || st.isLoading) = true := by
    rcases h with h | h <;> simp [h]
  simp [ChatPage.handleSendMessage, hc]

/-- C7 witness: the guard on a concrete loading state. -/
theorem chatSend_guard_witness :
    (ChatPage.handleSendMessage
        { threadId := "t", messages := [], query := "hello", isLoading := true,
          error := none, toolInfo := none,
          settings := { model := "gpt-4o", timeout_seconds := 120, recursion_limit := 100 },
          storage := some "t" }
        (Except.error ChatPage.JsThrown.other)).1 = none :=
  (chatSend_guard _ _ (Or.inr rfl)).1

/-- C10: when `queryAgent` fails, the user message appended before the
request remains, no assistant message is appended, and the error state is
set if and only if the thrown value is an AxiosError; any other exception
leaves the error state null. -/
theorem chatSend_error_path (st : ChatPage.State) (e : ChatPage.JsThrown)
    (h1 : ¬ jsTrim st.query = "") (h2 : st.isLoading = false) :
    (ChatPage.handleSendMessage st (Except.error e)).2.messages =
      st.messages ++ [{ role := Role.user, content := st.query }] ∧
    ((ChatPage.handleSendMessage st (Except.error e)).2.error.isSome = true ↔
      ∃ d, e = ChatPage.JsThrown.axiosError d) ∧
    (e = ChatPage.JsThrown.other →
      (ChatPage.handleSendMessage st (Except.error e)).2.error = none) := by
  have hc : (jsTrim st.query == "" || st.isLoading) = false := by
    simp [h1, h2]
  cases e with
  | axiosError d =>
      refine ⟨?_, ?_, ?_⟩
      · simp [ChatPage.handleSendMessage, hc]
      · simp [ChatPage.handleSendMessage, hc, jsOrStr]
      · intro h
        exact absurd h (by simp)
  | other =>
      refine ⟨?_, ?_, fun _ => ?_⟩
      · simp [ChatPage.handleSendMessage, hc]
      · simp [ChatPage.handleSendMessage, hc]
      · simp [ChatPage.handleSendMessage, hc]

/-- C10 witness: a concrete non-Axios failure keeps the user message and
leaves the error state null. -/
theorem chatSend_error_path_witness :
    (ChatPage.handleSendMessage
        { threadId := "t", messages := [], query := "hi", isLoading := false,
          error := none, toolInfo := none,
          settings := { model := "gpt-4o", timeout_seconds := 120, recursion_limit := 100 },
          storage := some "t" }
        (Except.error ChatPage.JsThrown.other)).2.error = none :=
  (chatSend_error_path _ ChatPage.JsThrown.other (by decide) rfl).2.2 rfl

/-- C2: after the initialization effect, after a confirmed reset, and
after a successful `sendMessage`, the `threadId` localStorage entry
equals the id of the thread that queries are posted to; resetting deletes
the old thread and stores the id of the freshly created one; `sendMessage`
creates and stores a thread id first whenever no entry exists; and the
request issued by `ChatPage.handleSendMessage` goes to the component
`threadId`. -/
theorem threadId_storage_spec :
    (∀ storage : Option String, ∀ res : Except Unit (List Message), ∀ newId : String,
      (ChatPage.initChat storage res newId).1 =
        some (ChatPage.initChat storage res newId).2.1) ∧
    (∀ st : ChatPage.State, ∀ newId : String,
      (ChatPage.handleResetChat st newId).1 = st.threadId ∧
      (ChatPage.handleResetChat st newId).2.threadId = newId ∧
      (ChatPage.handleResetChat st newId).2.storage = some newId ∧
      (ChatPage.handleResetChat st newId).2.messages = []) ∧
    (∀ storage : Option String, ∀ newId message : String, ∀ path : Option String,
      (Api.sendMessageModel storage newId message path).storage =
        some (Api.sendMessageModel storage newId message path).threadId) ∧
    (∀ newId message : String, ∀ path : Option String,
      (Api.sendMessageModel none newId message path).threadId = newId ∧
      (Api.sendMessageModel none newId message path).storage = some newId) ∧
    (∀ st : ChatPage.State,
      ∀ outcome : Except ChatPage.JsThrown ChatPage.QueryResponseData,
      ∀ p : String × QueryRequest,
      (ChatPage.handleSendMessage st outcome).1 = some p → p.1 = st.threadId) := by
  refine ⟨?_, fun st newId => ⟨rfl, rfl, rfl, rfl⟩, ?_, fun newId message path => ⟨rfl, rfl⟩, ?_⟩
  · intro storage res newId
    match storage with
    | none => rfl
    | some s =>
        by_cases hs : s = ""
        · subst hs
          cases res <;> rfl
        · have ht : strTruthy (some s) = true := by simp [strTruthy, hs]
          cases res <;> simp [ChatPage.initChat, ht]
  · intro storage newId message path
    match storage with
    | none => rfl
    | some s =>
        by_cases hs : s = ""
        · subst hs
          rfl
        · have ht : strTruthy (some s) = true := by simp [strTruthy, hs]
          simp [Api.sendMessageModel, ht]
  · intro st outcome p h
    by_cases hg : (jsTrim st.query == "" || st.isLoading) = true
    · simp [ChatPage.handleSendMessage, hg] at h
    · rw [Bool.not_eq_true] at hg
      cases outcome <;>
        · simp only [ChatPage.handleSendMessage, hg, Bool.false_eq_true, if_false,
            Option.some.injEq] at h
          rw [← h]

/-- C2 witness: the request of a concrete unguarded send goes to the
stored thread. -/
theorem threadId_storage_spec_witness :
    (Prod.mk (α := String) (β := QueryRequest) "t"
        { query := "hi", model := "gpt-4o", timeout_seconds := 120,
          recursion_limit := 100 }).1 = "t" :=
  threadId_storage_spec.2.2.2.2
    { threadId := "t", messages := [], query := "hi", isLoading := false,
      error := none, toolInfo := none,
      settings := { model := "gpt-4o", timeout_seconds := 120, recursion_limit := 100 },
      storage := some "t" }
    (Except.ok { response := "r" }) _ (by rfl)

/-- C1: on a successful send, a tool message with the response's
`tool_info` is appended (before the assistant reply) exactly when
`tool_info` is a non-empty string; the assistant reply then references
the current tool counter and the counter advances by one; otherwise no
`assistant_tool` message is appended and the reply references no tool. -/
theorem agentSend_tool_info (st : AgentApp.State) (resp : AgentApp.SendResponse)
    (hb : AgentApp.sendBlocked st = false) :
    (strTruthy resp.tool_info = true →
      (AgentApp.handleSendMessage st (Except.ok resp)).messages =
        st.messages ++
          [{ role := Role.user, content := st.userInput,
             attachmentPath := some st.attachmentPath },
           { role := Role.assistant_tool, content := resp.tool_info.getD "",
             toolReferenceId := some st.currentToolReferenceId },
           { role := Role.assistant,
             content := jsOrStr resp.response "응답을 받지 못했습니다.",
             referencedToolId := some st.currentToolReferenceId }] ∧
      (AgentApp.handleSendMessage st (Except.ok resp)).currentToolReferenceId =
        st.currentToolReferenceId + 1) ∧
    (strTruthy resp.tool_info = false →
      (AgentApp.handleSendMessage st (Except.ok resp)).messages =
        st.messages ++
          [{ role := Role.user, content := st.userInput,
             attachmentPath := some st.attachmentPath },
           { role := Role.assistant,
             content := jsOrStr resp.response "응답을 받지 못했습니다.",
             referencedToolId := none }] ∧
      (AgentApp.handleSendMessage st (Except.ok resp)).currentToolReferenceId =
        st.currentToolReferenceId ∧
      ∀ m ∈ (AgentApp.handleSendMessage st (Except.ok resp)).messages,
        m.role = Role.assistant_tool → m ∈ st.messages) := by
  constructor
  · intro h
    simp only [AgentApp.handleSendMessage, hb, Bool.false_eq_true, if_false, h,
      if_true]
    split <;> simp
  · intro h
    simp only [AgentApp.handleSendMessage, hb, Bool.false_eq_true, if_false, h,
      if_false]
    refine ⟨?_, ?_, ?_⟩
    · split <;> simp
    · split <;> simp
    · intro m hm hrole
      have hm2 : m ∈ st.messages ∨
          m ∈ [({ role := Role.user, content := st.userInput,
                  attachmentPath := some st.attachmentPath } : AgentApp.ExtMessage),
               { role := Role.assistant,
                 content := jsOrStr resp.response "응답을 받지 못했습니다.",
                 referencedToolId := none }] := by
        revert hm
        split <;> simp
      rcases hm2 with hm2 | hm2
      · exact hm2
      · simp at hm2
        rcases hm2 with hm2 | hm2 <;> rw [hm2] at hrole <;> simp at hrole

/-- C1 witness: a concrete send with a non-empty `tool_info` advances the
counter. -/
theorem agentSend_tool_info_witness :
    (AgentApp.handleSendMessage { AgentApp.initialState with userInput := "hello" }
        (Except.ok { tool_info := some "used tool X" })).currentToolReferenceId =
      1 + 1 :=
  ((agentSend_tool_info { AgentApp.initialState with userInput := "hello" }
      { tool_info := some "used tool X" } (by decide)).1 (by decide)).2

/-- C9 counterexample: with a whitespace-only input (trimmed empty) and an
uploaded attachment, `handleSendMessage` proceeds but the appended user
message carries the raw input `" "`, not the empty string claimed. -/
theorem agentSend_attachment_counterexample :
    (AgentApp.handleSendMessage
        { AgentApp.initialState with
            userInput := " "
            attachment := true
            attachmentPath := "up/f.csv" }
        (Except.ok {})).messages[0]? =
      some { role := Role.user, content := " ", attachmentPath := some "up/f.csv" } ∧
    jsTrim " " = "" ∧
    (" " : String) ≠ "" := by
  refine ⟨by decide, by decide, by decide⟩

/-- The element sitting right after a list prefix. -/
theorem getElem?_append_cons {α : Type} (l : List α) (u : α) (rest : List α) :
    (l ++ u :: rest)[l.length]? = some u := by
  rw [List.getElem?_append_right (Nat.le_refl _)]
  simp

/-- `getElem` variant of `getElem?_append_cons`. -/
theorem getElem_append_cons {α : Type} (l : List α) (u : α) (rest : List α)
    (h : l.length < (l ++ u :: rest).length) :
    (l ++ u :: rest)[l.length] = u := by
  induction l with
  | nil => rfl
  | cons a l2 ih =>
      simp only [List.cons_append, List.length_cons, List.getElem_cons_succ]
      exact ih (by simp)

/-- Whatever the outcome, an unblocked `handleSendMessage` first appends
the user message built from the raw input and the attachment path. -/
theorem agentSend_user_at (st : AgentApp.State)
    (outcome : Except Unit AgentApp.SendResponse)
    (hb : AgentApp.sendBlocked st = false) :
    (AgentApp.handleSendMessage st outcome).messages[st.messages.length]? =
      some { role := Role.user, content := st.userInput,
             attachmentPath := some st.attachmentPath } := by
  cases outcome with
  | error e =>
      simp [AgentApp.handleSendMessage, hb, List.append_assoc]
      exact getElem_append_cons _ _ _ (by simp)
  | ok resp =>
      simp only [AgentApp.handleSendMessage, hb, Bool.false_eq_true, if_false]
      split <;> split <;>
        · simp [List.append_assoc]
          exact getElem_append_cons _ _ _ (by simp)

/-- C9 (amended): when the trimmed input is empty but an attachment with a
non-empty uploaded path is present, `handleSendMessage` proceeds: it
appends a user message whose content is the raw (untrimmed) input and the
query posted for it is the raw input followed by the attachment
annotation; sending is blocked exactly when the trimmed input is empty
and no attachment is present, or an attachment exists whose upload has
not produced a path. -/
theorem agentSend_attachment_spec (st : AgentApp.State)
    (outcome : Except Unit AgentApp.SendResponse)
    (ht : jsTrim st.userInput = "") (ha : st.attachment = true)
    (hp : ¬ st.attachmentPath = "") :
    AgentApp.sendBlocked st = false ∧
    (AgentApp.handleSendMessage st outcome).messages[st.messages.length]? =
      some { role := Role.user, content := st.userInput,
             attachmentPath := some st.attachmentPath } ∧
    (Api.sendMessageBody st.userInput (some st.attachmentPath)).query =
      st.userInput ++ "\n[첨부 파일: " ++ st.attachmentPath ++ "]" ∧
    (∀ st2 : AgentApp.State, AgentApp.sendBlocked st2 = true ↔
      ((jsTrim st2.userInput = "" ∧ st2.attachment = false) ∨
        (st2.attachment = true ∧ st2.attachmentPath = ""))) := by
  have hb : AgentApp.sendBlocked st = false := by
    simp [AgentApp.sendBlocked, ht, ha, hp]
  refine ⟨hb, ?_, ?_, ?_⟩
  · exact agentSend_user_at st outcome hb
  · have hps : strTruthy (some st.attachmentPath) = true := by
      simp [strTruthy, hp]
    simp [Api.sendMessageBody, hps]
  · intro st2
    simp [AgentApp.sendBlocked, Bool.or_eq_true, Bool.and_eq_true,
      Bool.not_eq_true']

/-- Appending a correctly numbered element preserves the numbering. -/
theorem toolNumbering_append (l : List AgentApp.ExtMessage)
    (t : AgentApp.ExtMessage)
    (hn : ∀ i : Nat, ∀ m : AgentApp.ExtMessage,
      l[i]? = some m → m.toolReferenceId = some (i + 1))
    (ht : t.toolReferenceId = some (l.length + 1)) :
    ∀ i : Nat, ∀ m : AgentApp.ExtMessage,
      (l ++ [t])[i]? = some m → m.toolReferenceId = some (i + 1) := by
  intro i m h
  by_cases hi : i < l.length
  · rw [List.getElem?_append, if_pos hi] at h
    exact hn i m h
  · have hlen : i < (l ++ [t]).length := by
      by_contra hc
      rw [List.getElem?_eq_none (by omega)] at h
      exact Option.noConfusion h
    have hi2 : i = l.length := by
      simp only [List.length_append, List.length_cons, List.length_nil] at hlen
      omega
    subst hi2
    rw [getElem?_append_cons] at h
    injection h with h
    subst h
    exact ht

/-- The invariant transfers between states with the same tool messages
and counter. -/
theorem toolInvariant_of_eq (st st2 : AgentApp.State)
    (ih : AgentApp.toolInvariant st)
    (hm : AgentApp.toolMessages st2 = AgentApp.toolMessages st)
    (hc : st2.currentToolReferenceId = st.currentToolReferenceId) :
    AgentApp.toolInvariant st2 := by
  unfold AgentApp.toolInvariant at *
  rw [hm, hc]
  exact ih

/-- Pushing one tool message numbered with the current counter while
incrementing the counter preserves the invariant. -/
theorem toolInvariant_push (st st2 : AgentApp.State)
    (t : AgentApp.ExtMessage) (ih : AgentApp.toolInvariant st)
    (hm : AgentApp.toolMessages st2 = AgentApp.toolMessages st ++ [t])
    (hc : st2.currentToolReferenceId = st.currentToolReferenceId + 1)
    (ht : t.toolReferenceId = some st.currentToolReferenceId) :
    AgentApp.toolInvariant st2 := by
  unfold AgentApp.toolInvariant at *
  rw [hm, hc]
  constructor
  · simp only [List.length_append, List.length_cons, List.length_nil]
    omega
  · refine toolNumbering_append _ _ ih.2 ?_
    rw [ht, ih.1]

/-- `handleSendMessage` preserves the numbering invariant. -/
theorem toolInvariant_send (st : AgentApp.State)
    (outcome : Except Unit AgentApp.SendResponse)
    (ih : AgentApp.toolInvariant st) :
    AgentApp.toolInvariant (AgentApp.handleSendMessage st outcome) := by
  by_cases hb : AgentApp.sendBlocked st = true
  · simpa [AgentApp.handleSendMessage, hb] using ih
  · rw [Bool.not_eq_true] at hb
    cases outcome with
    | error e =>
        refine toolInvariant_of_eq st _ ih ?_ ?_
        · simp [AgentApp.handleSendMessage, hb, AgentApp.toolMessages,
            List.filter_append, AgentApp.sendErrorMessage]
        · simp [AgentApp.handleSendMessage, hb]
    | ok resp =>
        by_cases htool : strTruthy resp.tool_info = true
        · refine toolInvariant_push st _
            { role := Role.assistant_tool, content := resp.tool_info.getD "",
              toolReferenceId := some st.currentToolReferenceId } ih ?_ ?_ rfl
          · simp only [AgentApp.handleSendMessage, hb, Bool.false_eq_true,
              if_false, htool, if_true]
            split <;>
              simp [AgentApp.toolMessages, List.filter_append]
          · simp only [AgentApp.handleSendMessage, hb, Bool.false_eq_true,
              if_false, htool, if_true]
            split <;> simp
        · rw [Bool.not_eq_true] at htool
          refine toolInvariant_of_eq st _ ih ?_ ?_
          · simp only [AgentApp.handleSendMessage, hb, Bool.false_eq_true,
              if_false, htool]
            split <;>
              simp [AgentApp.toolMessages, List.filter_append, htool]
          · simp only [AgentApp.handleSendMessage, hb, Bool.false_eq_true,
              if_false, htool]
            split <;> simp [htool]

/-- C8: in every reachable `AgentApp` state the (k+1)-st `assistant_tool`
message (0-indexed k) carries `toolReferenceId` k+1, the counter equals
one plus the number of `assistant_tool` messages, and
`handleResetConversation` restores the empty message list and counter 1. -/
theorem toolReference_invariant :
    (∀ st : AgentApp.State, AgentApp.Reachable st → AgentApp.toolInvariant st) ∧
    (∀ st : AgentApp.State, ∀ r : Option String,
      (AgentApp.handleResetConversation st r).messages = [] ∧
      (AgentApp.handleResetConversation st r).currentToolReferenceId = 1) := by
  constructor
  · intro st h
    induction h with
    | init =>
        refine ⟨rfl, ?_⟩
        intro i m hm
        simp [AgentApp.toolMessages, AgentApp.initialState] at hm
    | send st2 outcome _ ih => exact toolInvariant_send st2 outcome ih
    | reset st2 r _ _ =>
        refine ⟨rfl, ?_⟩
        intro i m hm
        simp [AgentApp.toolMessages, AgentApp.handleResetConversation] at hm
    | uploadOk st2 path _ ih =>
        exact toolInvariant_of_eq st2 _ ih rfl rfl
    | uploadErr st2 _ ih =>
        refine toolInvariant_of_eq st2 _ ih ?_ rfl
        simp [AgentApp.toolMessages, AgentApp.handleFileUploadError,
          List.filter_append]
    | removeAttachment st2 _ ih =>
        exact toolInvariant_of_eq st2 _ ih rfl rfl
    | typing st2 s _ ih =>
        exact toolInvariant_of_eq st2 _ ih rfl rfl
  · intro st r
    exact ⟨rfl, rfl⟩

/-- C8 witness: the invariant at the initial state. -/
theorem toolReference_invariant_witness :
    AgentApp.toolInvariant AgentApp.initialState :=
  toolReference_invariant.1 AgentApp.initialState AgentApp.Reachable.init

/-- C9 witness: a concrete empty-input send with an uploaded attachment
posts the annotation-only query. -/
theorem agentSend_attachment_spec_witness :
    (Api.sendMessageBody "" (some "up/f.csv")).query =
      "" ++ "\n[첨부 파일: " ++ "up/f.csv" ++ "]" :=
  (agentSend_attachment_spec
      { AgentApp.initialState with attachment := true, attachmentPath := "up/f.csv" }
      (Except.ok {}) (by decide) rfl (by decide)).2.2.1

/-- `getLast?` returns a member of the list. -/
theorem mem_getLast? {α : Type} (l : List α) (a : α) (h : l.getLast? = some a) :
    a ∈ l := by
  induction l with
  | nil => exact absurd h (by simp)
  | cons b l2 ih =>
      cases l2 with
      | nil =>
          simp only [List.getLast?_singleton, Option.some.injEq] at h
          simp [h]
      | cons c l3 =>
          rw [List.getLast?_cons_cons] at h
          exact List.mem_cons_of_mem b (ih h)

/-- `scanMatch` finds nothing exactly when the matcher fails at every
suffix. -/
theorem scanMatch_eq_none_iff (f : List Char → Option Nat) (l : List Char) :
    ChatMessage.scanMatch f l = none ↔ ∀ i : Nat, f (l.drop i) = none := by
  induction l with
  | nil =>
      constructor
      · intro h i
        rw [List.drop_nil]
        simpa [ChatMessage.scanMatch, Option.map_eq_none'] using h
      · intro h
        simp only [ChatMessage.scanMatch, Option.map_eq_none']
        simpa using h 0
  | cons c cs ih =>
      cases hf : f (c :: cs) with
      | some n =>
          constructor
          · intro h
            exact absurd h (by simp [ChatMessage.scanMatch, hf])
          · intro h
            exact absurd (h 0) (by simp [hf])
      | none =>
          have hstep : ChatMessage.scanMatch f (c :: cs) =
              (ChatMessage.scanMatch f cs).map (fun p => (p.1 + 1, p.2)) := by
            simp [ChatMessage.scanMatch, hf]
          rw [hstep, Option.map_eq_none', ih]
          constructor
          · intro h i
            cases i with
            | zero => simpa using hf
            | succ j => simpa using h j
          · intro h j
            simpa using h (j + 1)

/-- What a successful `scanMatch` means: the matcher succeeds at the found
index and fails at every earlier one. -/
theorem scanMatch_some (f : List Char → Option Nat) :
    ∀ l : List Char, ∀ i n : Nat, ChatMessage.scanMatch f l = some (i, n) →
      f (l.drop i) = some n ∧ ∀ j : Nat, j < i → f (l.drop j) = none := by
  intro l
  induction l with
  | nil =>
      intro i n h
      simp only [ChatMessage.scanMatch, Option.map_eq_some'] at h
      obtain ⟨a, ha, hp⟩ := h
      obtain ⟨hi, hn⟩ := Prod.mk.injEq .. ▸ hp
      refine ⟨?_, ?_⟩
      · rw [List.drop_nil, ha, hn]
      · intro j hj
        omega
  | cons c cs ih =>
      intro i n h
      cases hf : f (c :: cs) with
      | some n2 =>
          rw [ChatMessage.scanMatch, hf] at h
          injection h with h
          obtain ⟨hi, hn⟩ := Prod.mk.injEq .. ▸ h
          subst hi
          subst hn
          exact ⟨by simpa using hf, fun j hj => absurd hj (by omega)⟩
      | none =>
          rw [ChatMessage.scanMatch, hf] at h
          simp only [Option.map_eq_some'] at h
          obtain ⟨p, hp, hpe⟩ := h
          obtain ⟨hi, hn⟩ := Prod.mk.injEq .. ▸ hpe
          obtain ⟨h1, h2⟩ := ih p.1 p.2 (by rw [hp])
          subst hi
          subst hn
          refine ⟨by simpa using h1, ?_⟩
          intro j hj
          cases j with
          | zero => simpa using hf
          | succ j2 =>
              rw [List.drop_succ_cons]
              exact h2 j2 (by omega)

/-- A global-regex `test` on a string with no match anywhere fails and
resets `lastIndex`, whatever its starting `lastIndex`. -/
theorem jsTestG_of_none (f : List Char → Option Nat) (l : List Char)
    (h : ChatMessage.scanMatch f l = none) (li : Nat) :
    ChatMessage.jsTestG f li l = (false, 0) := by
  unfold ChatMessage.jsTestG
  split
  · have hd : ChatMessage.scanMatch f (l.drop li) = none := by
      rw [scanMatch_eq_none_iff]
      intro i
      rw [List.drop_drop]
      exact (scanMatch_eq_none_iff f l).mp h _
    rw [hd]
  · rfl

/-- A matcher success at the head is found by `scanMatch` at index 0. -/
theorem scanMatch_head (f : List Char → Option Nat) (l : List Char) (n : Nat)
    (h : f l = some n) : ChatMessage.scanMatch f l = some (0, n) := by
  cases l with
  | nil => simp [ChatMessage.scanMatch, h]
  | cons c cs => simp [ChatMessage.scanMatch, h]

/-- A global-regex `test` from `lastIndex` 0 on a string the matcher
accepts entirely succeeds and moves `lastIndex` to the match end. -/
theorem jsTestG_head (f : List Char → Option Nat) (l : List Char) (n : Nat)
    (h : f l = some n) : ChatMessage.jsTestG f 0 l = (true, n) := by
  unfold ChatMessage.jsTestG
  rw [if_pos (Nat.zero_le _), List.drop_zero, scanMatch_head f l n h]
  simp

/-- A failed `hasMatch` means `scanMatch` found nothing. -/
theorem hasMatch_false (f : List Char → Option Nat) (l : List Char)
    (h : ChatMessage.hasMatch f l = false) : ChatMessage.scanMatch f l = none := by
  cases hsm : ChatMessage.scanMatch f l with
  | none => rfl
  | some p =>
      rw [ChatMessage.hasMatch, hsm] at h
      simp at h

/-- What a successful `lastHtmlEnd` guarantees about the returned cut. -/
theorem lastHtmlEnd_spec (run : List Char) (k : Nat)
    (h : ChatMessage.lastHtmlEnd run = some k) :
    6 ≤ k ∧ k ≤ run.length ∧ ChatMessage.endsHtml (run.take k) = true := by
  have hmem := mem_getLast? _ _ h
  rw [List.mem_filter] at hmem
  obtain ⟨hr, hp⟩ := hmem
  rw [List.mem_range] at hr
  rw [Bool.and_eq_true, decide_eq_true_eq] at hp
  exact ⟨hp.1, by omega, hp.2⟩

/-- Conversely, a valid cut of the full run is what `lastHtmlEnd` returns
on the truncated run. -/
theorem lastHtmlEnd_take (run : List Char) (k : Nat) (h6 : 6 ≤ k)
    (hk : k ≤ run.length) (he : ChatMessage.endsHtml (run.take k) = true) :
    ChatMessage.lastHtmlEnd (run.take k) = some k := by
  have hlen : (run.take k).length = k := by
    rw [List.length_take]
    omega
  unfold ChatMessage.lastHtmlEnd
  rw [hlen, List.range_succ, List.filter_append]
  have hpk : (fun j => decide (6 ≤ j) && ChatMessage.endsHtml ((run.take k).take j)) k =
      true := by
    have htk : (run.take k).take k = run.take k := by
      rw [List.take_of_length_le (by omega)]
    simp only [htk]
    rw [Bool.and_eq_true, decide_eq_true_eq]
    exact ⟨h6, he⟩
  rw [List.filter_cons, if_pos hpk]
  simp [List.getLast?_concat]

/-- `matchReportLenAt` never matches the empty string. -/
theorem matchReportLenAt_nil : ChatMessage.matchReportLenAt [] = none := by
  rfl

/-- Size bounds of a report-URL match: at least the 30-character literal
head plus a 6-character tail, and never past the end of the string. -/
theorem matchReportLenAt_bounds (l : List Char) (n : Nat)
    (h : ChatMessage.matchReportLenAt l = some n) : 36 ≤ n ∧ n ≤ l.length := by
  rw [ChatMessage.matchReportLenAt] at h
  split at h
  case isFalse => exact Option.noConfusion h
  case isTrue hpre =>
    rw [Option.map_eq_some'] at h
    obtain ⟨k, hk, hn⟩ := h
    obtain ⟨h6, hkle, _⟩ := lastHtmlEnd_spec _ _ hk
    have hwle : ((l.drop ChatMessage.reportUrlHead.length).takeWhile
        ChatMessage.nonWs).length ≤ (l.drop ChatMessage.reportUrlHead.length).length :=
      (List.takeWhile_prefix _).length_le
    have hhl : ChatMessage.reportUrlHead.length ≤ l.length :=
      (List.isPrefixOf_iff_prefix.mp hpre).length_le
    have hdl := List.length_drop ChatMessage.reportUrlHead.length l
    have h30 : ChatMessage.reportUrlHead.length = 30 := by decide
    omega

/-- The cut-out match of the report regex matches the regex on its own,
over its whole length.  This is what makes the match parts of the split
test positive again during rendering. -/
theorem matchReportLenAt_self (l : List Char) (n : Nat)
    (h : ChatMessage.matchReportLenAt l = some n) :
    ChatMessage.matchReportLenAt (l.take n) = some n ∧ (l.take n).length = n := by
  have hb := matchReportLenAt_bounds l n h
  rw [ChatMessage.matchReportLenAt] at h
  split at h
  case isFalse => exact Option.noConfusion h
  case isTrue hpre =>
    rw [Option.map_eq_some'] at h
    obtain ⟨k, hk, hn⟩ := h
    obtain ⟨h6, hkle, hend⟩ := lastHtmlEnd_spec _ _ hk
    obtain ⟨t, ht⟩ := List.isPrefixOf_iff_prefix.mp hpre
    have hdt : l.drop ChatMessage.reportUrlHead.length = t := by
      rw [← ht, List.drop_left]
    rw [hdt] at hk hkle hend
    have htk : t.take k = (t.takeWhile ChatMessage.nonWs).take k := by
      obtain ⟨u, hu⟩ := List.takeWhile_prefix (l := t) ChatMessage.nonWs
      conv_lhs => rw [← hu]
      rw [List.take_append_eq_append_take, Nat.sub_eq_zero_of_le hkle,
        List.take_zero, List.append_nil]
    have htake : l.take n = ChatMessage.reportUrlHead ++
        (t.takeWhile ChatMessage.nonWs).take k := by
      conv_lhs => rw [← ht, ← hn]
      rw [List.take_append_eq_append_take, List.take_of_length_le (by omega),
        Nat.add_sub_cancel_left, htk]
    have hrun : ((t.takeWhile ChatMessage.nonWs).take k).takeWhile
        ChatMessage.nonWs = (t.takeWhile ChatMessage.nonWs).take k := by
      rw [List.takeWhile_eq_self_iff]
      intro x hx
      exact List.mem_takeWhile_imp (List.take_subset _ _ hx)
    refine ⟨?_, ?_⟩
    · rw [htake, ChatMessage.matchReportLenAt,
        if_pos (List.isPrefixOf_iff_prefix.mpr (List.prefix_append _ _)),
        List.drop_left, hrun, lastHtmlEnd_take _ _ h6 hkle hend]
      rw [Option.map_some']
      exact congrArg some hn
    · rw [List.length_take]
      omega

/-- A report-URL match at the head of a string survives appending more
text: the literal head still matches and the old cut is still a valid
candidate inside the (possibly longer) non-whitespace run. -/
theorem matchReportLenAt_extend (p t : List Char) (n : Nat)
    (h : ChatMessage.matchReportLenAt p = some n) :
    ∃ m : Nat, ChatMessage.matchReportLenAt (p ++ t) = some m := by
  rw [ChatMessage.matchReportLenAt] at h
  split at h
  case isFalse => exact Option.noConfusion h
  case isTrue hpre =>
    rw [Option.map_eq_some'] at h
    obtain ⟨k, hk, hn⟩ := h
    obtain ⟨h6, hkle, hend⟩ := lastHtmlEnd_spec _ _ hk
    obtain ⟨u, hu⟩ := List.isPrefixOf_iff_prefix.mp hpre
    have hdu : p.drop ChatMessage.reportUrlHead.length = u := by
      rw [← hu, List.drop_left]
    rw [hdu] at hk hkle hend
    have hdrop : (p ++ t).drop ChatMessage.reportUrlHead.length = u ++ t := by
      rw [← hu, List.append_assoc, List.drop_left]
    have hprefix : u.takeWhile ChatMessage.nonWs <+:
        (u ++ t).takeWhile ChatMessage.nonWs := by
      rw [List.takeWhile_append]
      split
      case isTrue hfull =>
        have : u.takeWhile ChatMessage.nonWs = u :=
          (List.takeWhile_prefix _).eq_of_length hfull
        rw [this]
        exact List.prefix_append _ _
      case isFalse => exact List.prefix_refl _
    obtain ⟨v, hv⟩ := hprefix
    have hktake : ((u ++ t).takeWhile ChatMessage.nonWs).take k =
        (u.takeWhile ChatMessage.nonWs).take k := by
      rw [← hv, List.take_append_eq_append_take, Nat.sub_eq_zero_of_le hkle,
        List.take_zero, List.append_nil]
    have hkmem : k ∈ (List.range (((u ++ t).takeWhile ChatMessage.nonWs).length + 1)).filter
        (fun j => decide (6 ≤ j) &&
          ChatMessage.endsHtml (((u ++ t).takeWhile ChatMessage.nonWs).take j)) := by
      rw [List.mem_filter, List.mem_range]
      have hlelen : (u.takeWhile ChatMessage.nonWs).length ≤
          ((u ++ t).takeWhile ChatMessage.nonWs).length := by
        rw [← hv, List.length_append]
        omega
      refine ⟨by omega, ?_⟩
      rw [Bool.and_eq_true, decide_eq_true_eq, hktake]
      exact ⟨h6, hend⟩
    cases hlast : ChatMessage.lastHtmlEnd ((u ++ t).takeWhile ChatMessage.nonWs) with
    | none =>
        rw [ChatMessage.lastHtmlEnd, List.getLast?_eq_none_iff] at hlast
        exact absurd hlast (List.ne_nil_of_mem hkmem)
    | some k2 =>
        refine ⟨ChatMessage.reportUrlHead.length + k2, ?_⟩
        rw [ChatMessage.matchReportLenAt,
          if_pos (List.isPrefixOf_iff_prefix.mpr
            ((List.isPrefixOf_iff_prefix.mp hpre).trans (List.prefix_append _ _))),
          hdrop, hlast, Option.map_some']

/-- The text before the leftmost report-URL match contains no match of the
report regex at all. -/
theorem scanMatch_take_none (l : List Char) (i : Nat)
    (hnone : ∀ j : Nat, j < i → ChatMessage.matchReportLenAt (l.drop j) = none) :
    ChatMessage.scanMatch ChatMessage.matchReportLenAt (l.take i) = none := by
  rw [scanMatch_eq_none_iff]
  intro j
  by_cases hj : j < i
  · rw [List.drop_take]
    cases hm : ChatMessage.matchReportLenAt ((l.drop j).take (i - j)) with
    | none => rfl
    | some n =>
        obtain ⟨m2, hm2⟩ :=
          matchReportLenAt_extend _ ((l.drop j).drop (i - j)) _ hm
        rw [List.take_append_drop, hnone j hj] at hm2
        exact Option.noConfusion hm2
  · have hnil : (l.take i).drop j = [] := by
      apply List.drop_eq_nil_of_le
      rw [List.length_take]
      omega
    rw [hnil]
    exact matchReportLenAt_nil

/-- With more fuel than characters, the split output alternates between
match-free separators and exact matches of the report regex. -/
theorem goodParts_splitReportF :
    ∀ fuel : Nat, ∀ l : List Char, l.length < fuel →
      ChatMessage.GoodParts (ChatMessage.splitReportF fuel l) := by
  intro fuel
  induction fuel with
  | zero =>
      intro l h
      exact absurd h (by omega)
  | succ fuel ih =>
      intro l hl
      cases hs : ChatMessage.scanMatch ChatMessage.matchReportLenAt l with
      | none =>
          simp only [ChatMessage.splitReportF, hs]
          exact ChatMessage.GoodParts.last l hs
      | some p =>
          obtain ⟨i, n⟩ := p
          simp only [ChatMessage.splitReportF, hs]
          obtain ⟨hhead, hbefore⟩ := scanMatch_some _ l i n hs
          obtain ⟨hm_self, hm_len⟩ := matchReportLenAt_self _ _ hhead
          obtain ⟨h36, hle⟩ := matchReportLenAt_bounds _ _ hhead
          refine ChatMessage.GoodParts.cons _ _ _ ?_ ?_ ?_
          · exact scanMatch_take_none l i hbefore
          · rw [hm_len]
            exact hm_self
          · apply ih
            have hd := List.length_drop (i + max n 1) l
            have hdi := List.length_drop i l
            omega

/-- The split of any text has the alternating shape. -/
theorem goodParts_splitReport (l : List Char) :
    ChatMessage.GoodParts (ChatMessage.splitReport l) :=
  goodParts_splitReportF (l.length + 1) l (Nat.lt_succ_self _)

/-- Rendering a well-shaped part list: every part containing a report-URL
match becomes the report button carrying the computed filename, and every
part containing no match of either regex is passed through as plain text
— whatever the incoming `lastIndex` values. -/
theorem renderParts_good (parts : List (List Char))
    (hp : ChatMessage.GoodParts parts) :
    ∀ rli uli i : Nat, ∀ part : List Char, parts[i]? = some part →
      ((ChatMessage.hasMatch ChatMessage.matchReportLenAt part = true →
        (ChatMessage.renderParts rli uli parts)[i]? =
          some (ChatMessage.RenderItem.reportButton
            (ChatMessage.filenameOf part) part)) ∧
       (ChatMessage.hasMatch ChatMessage.matchReportLenAt part = false →
        ChatMessage.hasMatch ChatMessage.matchUrlLenAt part = false →
        (ChatMessage.renderParts rli uli parts)[i]? =
          some (ChatMessage.RenderItem.plain part))) := by
  induction hp with
  | last s hs =>
      intro rli uli i part hpart
      cases i with
      | zero =>
          simp only [List.getElem?_cons_zero, Option.some.injEq] at hpart
          subst hpart
          have hr := jsTestG_of_none _ _ hs rli
          constructor
          · intro hm
            rw [ChatMessage.hasMatch, hs] at hm
            simp at hm
          · intro _ hu
            have hru := jsTestG_of_none _ _ (hasMatch_false _ _ hu) uli
            simp [ChatMessage.renderParts, hr, hru]
      | succ j =>
          simp at hpart
  | cons s m rest hs hm hrest ih =>
      intro rli uli i part hpart
      have hr_s := jsTestG_of_none _ _ hs rli
      have hr_m := jsTestG_head _ _ _ hm
      cases i with
      | zero =>
          simp only [List.getElem?_cons_zero, Option.some.injEq] at hpart
          subst hpart
          constructor
          · intro hmf
            rw [ChatMessage.hasMatch, hs] at hmf
            simp at hmf
          · intro _ hu
            have hru := jsTestG_of_none _ _ (hasMatch_false _ _ hu) uli
            simp [ChatMessage.renderParts, hr_s, hru]
      | succ j =>
          rw [List.getElem?_cons_succ] at hpart
          have htail : (ChatMessage.renderParts rli uli (s :: m :: rest))[j + 1]? =
              (ChatMessage.renderParts 0
                ((ChatMessage.jsTestG ChatMessage.matchUrlLenAt uli s).2)
                (m :: rest))[j]? := by
            by_cases hu : (ChatMessage.jsTestG ChatMessage.matchUrlLenAt uli s).1 = true
            · simp [ChatMessage.renderParts, hr_s, hu]
            · simp [ChatMessage.renderParts, hr_s, hu]
          rw [htail]
          cases j with
          | zero =>
              simp only [List.getElem?_cons_zero, Option.some.injEq] at hpart
              subst hpart
              constructor
              · intro _
                simp [ChatMessage.renderParts, hr_m]
              · intro hmf _
                rw [ChatMessage.hasMatch, scanMatch_head _ _ _ hm] at hmf
                simp at hmf
          | succ j2 =>
              rw [List.getElem?_cons_succ] at hpart
              have htail2 :
                  (ChatMessage.renderParts 0
                    ((ChatMessage.jsTestG ChatMessage.matchUrlLenAt uli s).2)
                    (m :: rest))[j2 + 1]? =
                  (ChatMessage.renderParts m.length
                    ((ChatMessage.jsTestG ChatMessage.matchUrlLenAt uli s).2)
                    rest)[j2]? := by
                simp [ChatMessage.renderParts, hr_m]
              rw [htail2]
              exact ih m.length _ j2 part hpart

/-- C4 (amended): `renderContentWithLinks` renders every part of the split
that matches the report-URL pattern as a report-opening button whose label
is the last path segment with its first occurrence of `.html` removed
(falling back to `보고서` when that leaves nothing), and returns every
part matching neither URL pattern verbatim as plain text. -/
theorem renderContent_parts_spec (text : List Char) (i : Nat)
    (part : List Char)
    (hp : (ChatMessage.splitReport text)[i]? = some part) :
    (ChatMessage.hasMatch ChatMessage.matchReportLenAt part = true →
      (ChatMessage.renderContentWithLinks text)[i]? =
        some (ChatMessage.RenderItem.reportButton
          (ChatMessage.filenameOf part) part)) ∧
    (ChatMessage.hasMatch ChatMessage.matchReportLenAt part = false →
      ChatMessage.hasMatch ChatMessage.matchUrlLenAt part = false →
      (ChatMessage.renderContentWithLinks text)[i]? =
        some (ChatMessage.RenderItem.plain part)) :=
  renderParts_good _ (goodParts_splitReport text) 0 0 i part hp

/-- C4 witness: a concrete message with one report URL renders the button
at the match position and the surrounding text verbatim. -/
theorem renderContent_parts_spec_witness :
    (ChatMessage.renderContentWithLinks
        ("see http://localhost:8000/reports/abc.html now".toList))[1]? =
      some (ChatMessage.RenderItem.reportButton ("abc".toList)
        ("http://localhost:8000/reports/abc.html".toList)) ∧
    (ChatMessage.renderContentWithLinks
        ("see http://localhost:8000/reports/abc.html now".toList))[2]? =
      some (ChatMessage.RenderItem.plain (" now".toList)) :=
  ⟨(renderContent_parts_spec
      ("see http://localhost:8000/reports/abc.html now".toList) 1
      ("http://localhost:8000/reports/abc.html".toList) (by decide)).1
      (by decide),
    (renderContent_parts_spec
      ("see http://localhost:8000/reports/abc.html now".toList) 2
      (" now".toList) (by decide)).2 (by decide) (by decide)⟩

/-- C4 counterexample: `replace('.html', '')` removes the first occurrence
of `.html`, not the suffix: for the report URL
`http://localhost:8000/reports/a.htmlb.html` the rendered label is
`ab.html`, while the last path segment stripped of its `.html` suffix is
`a.htmlb`. -/
theorem renderContent_label_counterexample :
    (ChatMessage.renderContentWithLinks
        ("http://localhost:8000/reports/a.htmlb.html".toList))[1]? =
      some (ChatMessage.RenderItem.reportButton ("ab.html".toList)
        ("http://localhost:8000/reports/a.htmlb.html".toList)) ∧
    ChatMessage.specStripHtmlSuffix ("a.htmlb.html".toList) = "a.htmlb".toList ∧
    ("ab.html".toList : List Char) ≠ "a.htmlb".toList := by
  exact ⟨by decide, by decide, by decide⟩

end DAAgent
